import Mathlib

/-
Verification of the metadata-mirror sync pipeline: a shallow embedding of
the catalog/schema/table data model, the SQLite-backed mirror writers
(`write_catalogs`, `write_schemas`, `write_tables`, `search_catalogs`), and
the traversal orchestrator (`refresh_catalogs`, `refresh_all_schemas`,
`refresh_all_tables`, and the `main` driver), together with theorems
settling the frozen claims about them.

Network fetches and the storage engine are modelled as explicit oracles:
fetch results are `Except` values supplied by an environment, the engine's
accept/reject decision for each INSERT OR REPLACE statement is a boolean
oracle over records, and INSERT OR REPLACE against a natural-key-unique
table is modelled as remove-then-append upsert (the key constraints come
from the migration DDL, which lives outside the translated sources; the
spec fixes the natural keys: catalog `name`, schema `(catalog_name, name)`,
table `(catalog_name, schema_name, name)`).
-/

/-- Mirrors the Rust struct `Catalog` (api/metastore.rs): the flat catalog
record with all twenty persisted fields. -/
structure Catalog where
  name : String
  owner : String
  comment : Option String
  storage_root : Option String
  provider_name : Option String
  share_name : Option String
  enable_predictive_optimization : Option String
  metastore_id : String
  created_at : Int
  created_by : String
  updated_at : Option Int
  updated_by : Option String
  catalog_type : String
  storage_location : Option String
  isolation_mode : Option String
  connection_name : Option String
  full_name : String
  securable_kind : Option String
  securable_type : Option String
  browse_only : Option Bool
deriving DecidableEq, Repr

/-- Mirrors the Rust struct `Schema` (api/metastore.rs). -/
structure Schema where
  name : String
  catalog_name : String
  owner : String
  comment : Option String
  storage_root : Option String
  enable_predictive_optimization : Option String
  metastore_id : String
  full_name : String
  storage_location : Option String
  created_at : Int
  created_by : String
  updated_at : Option Int
  updated_by : Option String
  catalog_type : Option String
  browse_only : Option Bool
  schema_id : String
deriving DecidableEq, Repr

/-- Mirrors the Rust struct `Table` (api/metastore.rs). -/
structure Table where
  name : String
  catalog_name : String
  schema_name : String
  table_type : String
  data_source_format : Option String
  storage_location : Option String
  view_definition : Option String
  sql_path : Option String
  owner : String
  comment : Option String
  storage_credential_name : Option String
  enable_predictive_optimization : Option String
  metastore_id : Option String
  full_name : String
  data_access_configuration_id : Option String
  created_at : Int
  created_by : String
  updated_at : Option Int
  updated_by : Option String
  deleted_at : Option Int
  table_id : String
  access_point : Option String
  pipeline_id : Option String
  browse_only : Option Bool
deriving DecidableEq, Repr

/-- Mirrors `CatalogResponse` (a JSON object with a mandatory array field). -/
structure CatalogResponse where
  catalogs : List Catalog
deriving DecidableEq, Repr

/-- Mirrors `SchemaResponse`; the `schemas` field is nullable upstream. -/
structure SchemaResponse where
  schemas : Option (List Schema)
deriving DecidableEq, Repr

/-- Mirrors `TableResponse`; the `tables` field is nullable upstream. -/
structure TableResponse where
  tables : Option (List Table)
deriving DecidableEq, Repr

/-- The three mirror tables of the local SQLite store, each a row list in
rowid order. -/
structure Store where
  catalogs : List Catalog
  schemas : List Schema
  tables : List Table
deriving DecidableEq, Repr

def emptyStore : Store := ⟨[], [], []⟩

/-- Natural key of a catalogs-table row (migration DDL / spec section 3). -/
def catalogKey (c : Catalog) : String := c.name

/-- Natural key of a schemas-table row. -/
def schemaKey (s : Schema) : String × String := (s.catalog_name, s.name)

/-- Natural key of a tables-table row. -/
def tableKey (t : Table) : String × String × String :=
  (t.catalog_name, t.schema_name, t.name)

/-- INSERT OR REPLACE of one row into a table whose natural key is `key`:
SQLite deletes any conflicting row and appends the new row with a fresh
rowid. -/
def upsertBy {R K : Type} [DecidableEq K] (key : R → K)
    (rows : List R) (r : R) : List R :=
  rows.filter (fun x => decide (key x ≠ key r)) ++ [r]

/-- A sequence of INSERT OR REPLACE statements, one per input record, in
input order. -/
def writeRowsBy {R K : Type} [DecidableEq K] (key : R → K)
    (rows : List R) (l : List R) : List R :=
  l.foldl (upsertBy key) rows

/-- The filter applied by `SqlClient::write_catalogs` before each statement
(sql_client.rs line 75): only `DELTASHARING_CATALOG` rows and the
`__databricks_internal` catalog are skipped at write time. -/
def catalogWriteIncluded (c : Catalog) : Bool :=
  c.catalog_type != "DELTASHARING_CATALOG" && c.name != "__databricks_internal"

/-- The traversal-level exclusion predicate inlined in
`refresh_all_schemas` / `refresh_all_tables` (metastore.rs lines 115, 132):
three conditions, including the legacy test catalog name. -/
def includeCatalog (c : Catalog) : Bool :=
  c.catalog_type != "DELTASHARING_CATALOG" && c.name != "__databricks_internal"
    && c.name != "adrian_hive_test"

/-- `SqlClient::write_catalogs` with an always-accepting engine: one
INSERT OR REPLACE per catalog passing the write-time filter. -/
def write_catalogs (store : Store) (resp : CatalogResponse) : Store :=
  let rows := resp.catalogs.foldl
    (fun rows c =>
      if catalogWriteIncluded c then upsertBy catalogKey rows c else rows)
    store.catalogs
  { store with catalogs := rows }

/-- `SqlClient::write_schemas` with an always-accepting engine: a null
`schemas` field writes nothing; otherwise one statement per schema. -/
def write_schemas (store : Store) (resp : SchemaResponse) : Store :=
  match resp.schemas with
  | none => store
  | some l => { store with schemas := writeRowsBy schemaKey store.schemas l }

/-- `SqlClient::write_tables` with an always-accepting engine: a null
`tables` field writes nothing; otherwise one statement per table. -/
def write_tables (store : Store) (resp : TableResponse) : Store :=
  match resp.tables with
  | none => store
  | some l => { store with tables := writeRowsBy tableKey store.tables l }

/-- The storage engine's verdict on one statement. -/
inductive PersistErr where
  | engineReject
deriving DecidableEq, Repr

/-- The row-by-row write loop shared by the three writers, with the engine's
accept/reject decision made explicit: records failing the predicate `p` are
skipped without a statement (write_catalogs' filter; `p` is constantly true
for schemas and tables); an accepted record is upserted; a rejected record
aborts the loop with the engine's error (`?` / early return in the source).
Returns the statements attempted (their records, in order), the final row
list (the committed prefix on error — no transaction, no rollback), and the
result. -/
def writeLoopBy {R K : Type} [DecidableEq K] (key : R → K) (p : R → Bool)
    (fail : R → Bool) (rows : List R) :
    List R → List R × List R × Except PersistErr Unit
  | [] => ([], rows, Except.ok ())
  | r :: rest =>
    if p r then
      if fail r then ([r], rows, Except.error PersistErr.engineReject)
      else
        let out := writeLoopBy key p fail (upsertBy key rows r) rest
        (r :: out.1, out.2.1, out.2.2)
    else writeLoopBy key p fail rows rest

/-- `SqlClient::write_catalogs` with an explicit engine oracle. -/
def write_catalogsE (fail : Catalog → Bool) (store : Store)
    (resp : CatalogResponse) :
    List Catalog × Store × Except PersistErr Unit :=
  let out := writeLoopBy catalogKey catalogWriteIncluded fail
      store.catalogs resp.catalogs
  (out.1, { store with catalogs := out.2.1 }, out.2.2)

/-- `SqlClient::write_schemas` with an explicit engine oracle. -/
def write_schemasE (fail : Schema → Bool) (store : Store)
    (resp : SchemaResponse) :
    List Schema × Store × Except PersistErr Unit :=
  match resp.schemas with
  | none => ([], store, Except.ok ())
  | some l =>
    let out := writeLoopBy schemaKey (fun _ => true) fail store.schemas l
    (out.1, { store with schemas := out.2.1 }, out.2.2)

/-- `SqlClient::write_tables` with an explicit engine oracle. -/
def write_tablesE (fail : Table → Bool) (store : Store)
    (resp : TableResponse) :
    List Table × Store × Except PersistErr Unit :=
  match resp.tables with
  | none => ([], store, Except.ok ())
  | some l =>
    let out := writeLoopBy tableKey (fun _ => true) fail store.tables l
    (out.1, { store with tables := out.2.1 }, out.2.2)

/-- Observable actions of a sync run, in order of occurrence: the outbound
fetches, the writer invocations, and the pacing sleeps. -/
inductive Event where
  | fetchCatalogs
  | fetchSchemas (catalogName : String)
  | fetchTables (catalogName schemaName : String)
  | writeCatalogs
  | writeSchemas
  | writeTables
  | sleepSecs (n : Nat)
deriving DecidableEq, Repr

/-- The fetch-side error taxonomy of the source: a transport failure or a
response body that does not decode into the expected shape. -/
inductive ApiError where
  | transportFailed
  | decodeFailed
deriving DecidableEq, Repr

/-- Outcome of one sync phase: success, an `Err` returned to the caller, or
a panic (the `.unwrap()` calls on the writers abort the whole process). -/
inductive RunResult where
  | ok
  | err (e : ApiError)
  | panicked
deriving DecidableEq, Repr

/-- The environment a run executes against: the transport's response for the
catalogs endpoint and its decoder, the (already fetch-and-decoded) results
for the schemas and tables endpoints, and the engine's accept/reject oracle
for each writer's statements. -/
structure Env where
  catTransport : Except Unit String
  catDecode : String → Except Unit CatalogResponse
  schemasResult : String → Except ApiError SchemaResponse
  tablesResult : String → String → Except ApiError TableResponse
  catFail : Catalog → Bool
  schFail : Schema → Bool
  tabFail : Table → Bool

/-- `MetastoreClient::fetch_catalogs` (metastore.rs lines 20-36): a
transport failure propagates; a body that does not decode as a
`CatalogResponse` is logged and returned as an error. -/
def fetch_catalogs (transportResult : Except Unit String)
    (decodeBody : String → Except Unit CatalogResponse) :
    Except ApiError CatalogResponse :=
  match transportResult with
  | Except.error _ => Except.error ApiError.transportFailed
  | Except.ok body =>
    match decodeBody body with
    | Except.error _ => Except.error ApiError.decodeFailed
    | Except.ok resp => Except.ok resp

/-- The catalogs fetch as each sync phase performs it. -/
def catalogsFetchResult (env : Env) : Except ApiError CatalogResponse :=
  fetch_catalogs env.catTransport env.catDecode

/-- `MetastoreClient::refresh_catalogs` (metastore.rs lines 101-107): fetch
all catalogs (`?` propagates fetch errors before any write), then
`write_catalogs(..).unwrap()` — a persistence error panics. -/
def refresh_catalogs (env : Env) (store : Store) :
    List Event × Store × RunResult :=
  match catalogsFetchResult env with
  | Except.error e => ([Event.fetchCatalogs], store, RunResult.err e)
  | Except.ok resp =>
    match write_catalogsE env.catFail store resp with
    | (_, store1, Except.error _) =>
      ([Event.fetchCatalogs, Event.writeCatalogs], store1, RunResult.panicked)
    | (_, store1, Except.ok _) =>
      ([Event.fetchCatalogs, Event.writeCatalogs], store1, RunResult.ok)

/-- The per-catalog loop of `MetastoreClient::refresh_all_schemas`
(metastore.rs lines 113-120): for each catalog passing the three-part
exclusion check, fetch its schemas (`?` propagates), persist them
(`.unwrap()` panics on a persistence error), then sleep one second. -/
def refreshSchemasLoop (env : Env) (store : Store) :
    List Catalog → List Event × Store × RunResult
  | [] => ([], store, RunResult.ok)
  | c :: rest =>
    if includeCatalog c then
      match env.schemasResult c.name with
      | Except.error e => ([Event.fetchSchemas c.name], store, RunResult.err e)
      | Except.ok resp =>
        match write_schemasE env.schFail store resp with
        | (_, store1, Except.error _) =>
          ([Event.fetchSchemas c.name, Event.writeSchemas], store1,
            RunResult.panicked)
        | (_, store1, Except.ok _) =>
          let out := refreshSchemasLoop env store1 rest
          (Event.fetchSchemas c.name :: Event.writeSchemas ::
              Event.sleepSecs 1 :: out.1,
            out.2.1, out.2.2)
    else refreshSchemasLoop env store rest

/-- `MetastoreClient::refresh_all_schemas` (metastore.rs lines 110-122). -/
def refresh_all_schemas (env : Env) (store : Store) :
    List Event × Store × RunResult :=
  match catalogsFetchResult env with
  | Except.error e => ([Event.fetchCatalogs], store, RunResult.err e)
  | Except.ok resp =>
    let out := refreshSchemasLoop env store resp.catalogs
    (Event.fetchCatalogs :: out.1, out.2.1, out.2.2)

/-- The per-schema inner loop of `MetastoreClient::refresh_all_tables`
(metastore.rs lines 135-143): fetch the schema's tables (`?` propagates);
when the `tables` field is non-null, persist it (`.unwrap()` panics on a
persistence error); no sleep at this level. -/
def refreshTablesInner (env : Env) (store : Store) (catalogName : String) :
    List Schema → List Event × Store × RunResult
  | [] => ([], store, RunResult.ok)
  | sch :: rest =>
    match env.tablesResult catalogName sch.name with
    | Except.error e =>
      ([Event.fetchTables catalogName sch.name], store, RunResult.err e)
    | Except.ok tresp =>
      match tresp.tables with
      | none =>
        let out := refreshTablesInner env store catalogName rest
        (Event.fetchTables catalogName sch.name :: out.1, out.2.1, out.2.2)
      | some _ =>
        match write_tablesE env.tabFail store tresp with
        | (_, store1, Except.error _) =>
          ([Event.fetchTables catalogName sch.name, Event.writeTables],
            store1, RunResult.panicked)
        | (_, store1, Except.ok _) =>
          let out := refreshTablesInner env store1 catalogName rest
          (Event.fetchTables catalogName sch.name :: Event.writeTables ::
              out.1,
            out.2.1, out.2.2)

/-- The per-catalog loop of `MetastoreClient::refresh_all_tables`
(metastore.rs lines 129-146): for each catalog passing the three-part
exclusion check, fetch its schemas; a null `schemas` field means no
schemas; otherwise run the inner per-schema loop, aborting the traversal on
its error or panic. -/
def refreshTablesLoop (env : Env) (store : Store) :
    List Catalog → List Event × Store × RunResult
  | [] => ([], store, RunResult.ok)
  | c :: rest =>
    if includeCatalog c then
      match env.schemasResult c.name with
      | Except.error e => ([Event.fetchSchemas c.name], store, RunResult.err e)
      | Except.ok resp =>
        match resp.schemas with
        | none =>
          let out := refreshTablesLoop env store rest
          (Event.fetchSchemas c.name :: out.1, out.2.1, out.2.2)
        | some schs =>
          let inner := refreshTablesInner env store c.name schs
          match inner.2.2 with
          | RunResult.ok =>
            let out := refreshTablesLoop env inner.2.1 rest
            (Event.fetchSchemas c.name :: (inner.1 ++ out.1), out.2.1, out.2.2)
          | r => (Event.fetchSchemas c.name :: inner.1, inner.2.1, r)
    else refreshTablesLoop env store rest

/-- `MetastoreClient::refresh_all_tables` (metastore.rs lines 125-148). -/
def refresh_all_tables (env : Env) (store : Store) :
    List Event × Store × RunResult :=
  match catalogsFetchResult env with
  | Except.error e => ([Event.fetchCatalogs], store, RunResult.err e)
  | Except.ok resp =>
    let out := refreshTablesLoop env store resp.catalogs
    (Event.fetchCatalogs :: out.1, out.2.1, out.2.2)

/-- The top-level driver (main.rs lines 39-43): the three phases are invoked
in sequence and their `Result` values are discarded (`let _ = ...`), so a
phase returning `Err` does not stop the next phase; only a panic terminates
the process. -/
def runAll (env : Env) (store : Store) : List Event × Store :=
  let p1 := refresh_catalogs env store
  match p1.2.2 with
  | RunResult.panicked => (p1.1, p1.2.1)
  | _ =>
    let p2 := refresh_all_schemas env p1.2.1
    match p2.2.2 with
    | RunResult.panicked => (p1.1 ++ p2.1, p2.2.1)
    | _ =>
      let p3 := refresh_all_tables env p2.2.1
      (p1.1 ++ p2.1 ++ p3.1, p3.2.1)

/-- Errors of the storage engine's read path: a statement the engine's SQL
grammar rejects, a column missing from a fetched row, or a value of the
wrong type for the target field. -/
inductive SqlError where
  | parseError
  | columnMissing
  | typeMismatch
deriving DecidableEq, Repr

/-- A fetched row: column-name/value pairs. -/
inductive SqlValue where
  | text (s : String)
  | int (n : Int)
  | boolean (b : Bool)
  | null
deriving DecidableEq, Repr

/-- Models the storage engine executing a read statement of this client.
The only statement `search_catalogs` can produce that is valid SQL is the
bare `select name from catalogs`, which yields one single-column row per
stored catalog. Every statement produced with a search term appends
` where like %<term>%`: after the bare identifier `like`, the trailing `%`
is SQLite's binary modulo operator with no right operand, so the engine
rejects any such statement as a parse error. -/
def runSelect (store : Store) (qry : String) :
    Except SqlError (List (List (String × SqlValue))) :=
  if qry = "select name from catalogs" then
    Except.ok (store.catalogs.map (fun c => [("name", SqlValue.text c.name)]))
  else Except.error SqlError.parseError

def rowLookup (row : List (String × SqlValue)) (col : String) :
    Except SqlError SqlValue :=
  match row.find? (fun p => p.1 == col) with
  | some p => Except.ok p.2
  | none => Except.error SqlError.columnMissing

def rowText (row : List (String × SqlValue)) (col : String) :
    Except SqlError String :=
  match rowLookup row col with
  | Except.ok (SqlValue.text s) => Except.ok s
  | Except.ok _ => Except.error SqlError.typeMismatch
  | Except.error e => Except.error e

def rowOptText (row : List (String × SqlValue)) (col : String) :
    Except SqlError (Option String) :=
  match rowLookup row col with
  | Except.ok (SqlValue.text s) => Except.ok (some s)
  | Except.ok SqlValue.null => Except.ok none
  | Except.ok _ => Except.error SqlError.typeMismatch
  | Except.error e => Except.error e

def rowInt (row : List (String × SqlValue)) (col : String) :
    Except SqlError Int :=
  match rowLookup row col with
  | Except.ok (SqlValue.int n) => Except.ok n
  | Except.ok _ => Except.error SqlError.typeMismatch
  | Except.error e => Except.error e

def rowOptInt (row : List (String × SqlValue)) (col : String) :
    Except SqlError (Option Int) :=
  match rowLookup row col with
  | Except.ok (SqlValue.int n) => Except.ok (some n)
  | Except.ok SqlValue.null => Except.ok none
  | Except.ok _ => Except.error SqlError.typeMismatch
  | Except.error e => Except.error e

def rowOptBool (row : List (String × SqlValue)) (col : String) :
    Except SqlError (Option Bool) :=
  match rowLookup row col with
  | Except.ok (SqlValue.boolean b) => Except.ok (some b)
  | Except.ok SqlValue.null => Except.ok none
  | Except.ok _ => Except.error SqlError.typeMismatch
  | Except.error e => Except.error e

/-- The derived `FromRow` decoding of a fetched row into a `Catalog`
(`query_as::<_, Catalog>`): every one of the twenty struct fields is read
from its column, so a row lacking any of them fails to decode. -/
def catalogFromRow (row : List (String × SqlValue)) :
    Except SqlError Catalog := do
  let name ← rowText row "name"
  let owner ← rowText row "owner"
  let comment ← rowOptText row "comment"
  let storage_root ← rowOptText row "storage_root"
  let provider_name ← rowOptText row "provider_name"
  let share_name ← rowOptText row "share_name"
  let enable_predictive_optimization ←
    rowOptText row "enable_predictive_optimization"
  let metastore_id ← rowText row "metastore_id"
  let created_at ← rowInt row "created_at"
  let created_by ← rowText row "created_by"
  let updated_at ← rowOptInt row "updated_at"
  let updated_by ← rowOptText row "updated_by"
  let catalog_type ← rowText row "catalog_type"
  let storage_location ← rowOptText row "storage_location"
  let isolation_mode ← rowOptText row "isolation_mode"
  let connection_name ← rowOptText row "connection_name"
  let full_name ← rowText row "full_name"
  let securable_kind ← rowOptText row "securable_kind"
  let securable_type ← rowOptText row "securable_type"
  let browse_only ← rowOptBool row "browse_only"
  pure { name, owner, comment, storage_root, provider_name, share_name,
         enable_predictive_optimization, metastore_id, created_at,
         created_by, updated_at, updated_by, catalog_type, storage_location,
         isolation_mode, connection_name, full_name, securable_kind,
         securable_type, browse_only }

/-- `SqlClient::search_catalogs` (sql_client.rs lines 193-208): build the
query string — `select name from catalogs`, plus, when a term is supplied,
the appended clause `format!(" where like %{}%", term)` exactly as the
source writes it — run it, and decode each fetched row as a `Catalog`.
The store is returned alongside to make explicit that the call issues no
write. -/
def search_catalogs (store : Store) (searchTerm : Option String) :
    Store × Except SqlError (List Catalog) :=
  let qry := "select name from catalogs" ++
    (match searchTerm with
     | some term => " where like %" ++ term ++ "%"
     | none => "")
  (store,
    match runSelect store qry with
    | Except.error e => Except.error e
    | Except.ok rows => rows.mapM catalogFromRow)

/-- The rows a run of upserts leaves for the written collection: one row per
natural key, the last record of the collection carrying that key, in order
of last occurrence. -/
def canonBy {R K : Type} [DecidableEq K] (key : R → K) : List R → List R
  | [] => []
  | r :: rest =>
    if key r ∈ rest.map key then canonBy key rest else r :: canonBy key rest

theorem canonBy_subset {R K : Type} [DecidableEq K] (key : R → K)
    (l : List R) : ∀ x ∈ canonBy key l, x ∈ l := by
  induction l with
  | nil => intro x hx; simp [canonBy] at hx
  | cons r rest ih =>
    intro x hx
    by_cases h : key r ∈ rest.map key
    · simp only [canonBy, if_pos h] at hx
      exact List.mem_cons_of_mem r (ih x hx)
    · simp only [canonBy, if_neg h] at hx
      rcases List.mem_cons.mp hx with h1 | h1
      · exact h1 ▸ List.mem_cons_self r rest
      · exact List.mem_cons_of_mem r (ih x h1)

theorem canonBy_keys_nodup {R K : Type} [DecidableEq K] (key : R → K)
    (l : List R) : ((canonBy key l).map key).Nodup := by
  induction l with
  | nil => simp [canonBy]
  | cons r rest ih =>
    by_cases h : key r ∈ rest.map key
    · simp only [canonBy, if_pos h]; exact ih
    · simp only [canonBy, if_neg h, List.map_cons, List.nodup_cons]
      refine ⟨?_, ih⟩
      intro hmem
      rcases List.mem_map.mp hmem with ⟨y, hy, he⟩
      exact h (he ▸ List.mem_map_of_mem key (canonBy_subset key rest y hy))

theorem writeRowsBy_eq {R K : Type} [DecidableEq K] (key : R → K)
    (l : List R) : ∀ rows : List R,
    writeRowsBy key rows l
      = rows.filter (fun x => decide (key x ∉ l.map key)) ++ canonBy key l := by
  induction l with
  | nil => intro rows; simp [writeRowsBy, canonBy]
  | cons r rest ih =>
    intro rows
    have step : writeRowsBy key rows (r :: rest)
        = writeRowsBy key (upsertBy key rows r) rest := rfl
    rw [step, ih]
    have hfilter : (upsertBy key rows r).filter
          (fun x => decide (key x ∉ rest.map key))
        = rows.filter (fun x => decide (key x ∉ (r :: rest).map key))
            ++ [r].filter (fun x => decide (key x ∉ rest.map key)) := by
      rw [upsertBy, List.filter_append, List.filter_filter]
      congr 1
      apply List.filter_congr
      intro x _
      by_cases h1 : key x ∈ List.map key rest <;>
        by_cases h2 : key x = key r <;>
          simp [h1, h2, List.mem_cons]
    rw [hfilter]
    by_cases h : key r ∈ rest.map key
    · have hdec : decide (key r ∉ List.map key rest) = false :=
        decide_eq_false (not_not_intro h)
      have hcanon : canonBy key (r :: rest) = canonBy key rest := by
        simp only [canonBy, if_pos h]
      have hsing : List.filter (fun x => decide (key x ∉ List.map key rest)) [r]
          = [] := by
        simp only [List.filter_singleton, hdec, Bool.cond_false]
      rw [hcanon, hsing]
      simp
    · have hdec : decide (key r ∉ List.map key rest) = true := decide_eq_true h
      have hcanon : canonBy key (r :: rest) = r :: canonBy key rest := by
        simp only [canonBy, if_neg h]
      have hsing : List.filter (fun x => decide (key x ∉ List.map key rest)) [r]
          = [r] := by
        simp only [List.filter_singleton, hdec, Bool.cond_true]
      rw [hcanon, hsing]
      simp

theorem mem_canonBy_keys {R K : Type} [DecidableEq K] (key : R → K)
    (l : List R) {x : R} (hx : x ∈ canonBy key l) : key x ∈ l.map key :=
  List.mem_map_of_mem key (canonBy_subset key l x hx)

theorem writeRowsBy_idem {R K : Type} [DecidableEq K] (key : R → K)
    (rows l : List R) :
    writeRowsBy key (writeRowsBy key rows l) l = writeRowsBy key rows l := by
  have h1 : ∀ rs : List R,
      (rs.filter (fun x => decide (key x ∉ l.map key))).filter
          (fun x => decide (key x ∉ l.map key))
        = rs.filter (fun x => decide (key x ∉ l.map key)) := by
    intro rs
    rw [List.filter_filter]
    apply List.filter_congr
    intro x _
    rw [Bool.and_self]
  have h2 : (canonBy key l).filter (fun x => decide (key x ∉ l.map key))
      = [] := by
    rw [List.filter_eq_nil_iff]
    intro x hx
    simp [mem_canonBy_keys key l hx]
  conv_lhs => rw [writeRowsBy_eq key l]
  rw [writeRowsBy_eq key l rows, List.filter_append, h1 rows, h2]
  simp

theorem writeRowsBy_keys_nodup {R K : Type} [DecidableEq K] (key : R → K)
    (rows l : List R) (h : (rows.map key).Nodup) :
    ((writeRowsBy key rows l).map key).Nodup := by
  rw [writeRowsBy_eq, List.map_append, List.nodup_append]
  refine ⟨?_, canonBy_keys_nodup key l, ?_⟩
  · exact h.sublist ((List.filter_sublist rows).map key)
  · intro a ha hb
    rcases List.mem_map.mp ha with ⟨x, hx, rfl⟩
    rcases List.mem_filter.mp hx with ⟨_, hP⟩
    rcases List.mem_map.mp hb with ⟨y, hy, he⟩
    exact (of_decide_eq_true hP) (he ▸ mem_canonBy_keys key l hy)

theorem mem_writeRowsBy {R K : Type} [DecidableEq K] (key : R → K)
    (rows l : List R) {r : R} (h : r ∈ writeRowsBy key rows l) :
    r ∈ rows ∨ r ∈ l := by
  rw [writeRowsBy_eq] at h
  rcases List.mem_append.mp h with h1 | h1
  · exact Or.inl (List.mem_filter.mp h1).1
  · exact Or.inr (canonBy_subset key l r h1)

theorem foldl_upsert_filter {R K : Type} [DecidableEq K] (key : R → K)
    (p : R → Bool) (l : List R) : ∀ rows : List R,
    l.foldl (fun acc x => if p x then upsertBy key acc x else acc) rows
      = writeRowsBy key rows (l.filter p) := by
  induction l with
  | nil => intro rows; simp [writeRowsBy]
  | cons x xs ih =>
    intro rows
    by_cases hx : p x
    · simp only [List.foldl_cons, if_pos hx, List.filter_cons, hx, ite_true]
      rw [ih]
      rfl
    · have hx' : p x = false := by simpa using hx
      simp only [List.foldl_cons, hx', Bool.false_eq_true, ite_false,
        List.filter_cons]
      rw [ih]

theorem writeLoopBy_noFail {R K : Type} [DecidableEq K] (key : R → K)
    (p : R → Bool) (l : List R) : ∀ rows : List R,
    writeLoopBy key p (fun _ => false) rows l
      = (l.filter p,
         l.foldl (fun acc x => if p x then upsertBy key acc x else acc) rows,
         Except.ok ()) := by
  induction l with
  | nil => intro rows; simp [writeLoopBy]
  | cons x xs ih =>
    intro rows
    by_cases hx : p x
    · simp [writeLoopBy, hx, ih, List.filter_cons]
    · simp [writeLoopBy, hx, ih, List.filter_cons]

theorem writeLoopBy_stops_at_failure {R K : Type} [DecidableEq K] (key : R → K)
    (p fail : R → Bool) (r : R) (l2 : List R) :
    ∀ (l1 : List R) (rows : List R),
      (∀ x ∈ l1, p x = true → fail x = false) → p r = true → fail r = true →
      writeLoopBy key p fail rows (l1 ++ r :: l2)
        = (l1.filter p ++ [r],
           l1.foldl (fun acc x => if p x then upsertBy key acc x else acc)
             rows,
           Except.error PersistErr.engineReject) := by
  intro l1
  induction l1 with
  | nil =>
    intro rows _ hp hf
    simp [writeLoopBy, hp, hf]
  | cons x xs ih =>
    intro rows h1 hp hf
    by_cases hx : p x
    · have hfx : fail x = false := h1 x (List.mem_cons_self x xs) hx
      have e : writeLoopBy key p fail rows ((x :: xs) ++ r :: l2)
          = (x :: (writeLoopBy key p fail (upsertBy key rows x)
                (xs ++ r :: l2)).1,
             (writeLoopBy key p fail (upsertBy key rows x)
                (xs ++ r :: l2)).2.1,
             (writeLoopBy key p fail (upsertBy key rows x)
                (xs ++ r :: l2)).2.2) := by
        simp [writeLoopBy, hx, hfx]
      rw [e, ih (upsertBy key rows x)
        (fun y hy => h1 y (List.mem_cons_of_mem x hy)) hp hf]
      simp [hx, List.filter_cons]
    · have hx' : p x = false := by simpa using hx
      have e : writeLoopBy key p fail rows ((x :: xs) ++ r :: l2)
          = writeLoopBy key p fail rows (xs ++ r :: l2) := by
        simp [writeLoopBy, hx']
      rw [e, ih rows (fun y hy => h1 y (List.mem_cons_of_mem x hy)) hp hf]
      simp [List.filter_cons, hx']

theorem schemasLoop_events (env : Env) : ∀ (cats : List Catalog)
    (store : Store) (e : Event),
    e ∈ (refreshSchemasLoop env store cats).1 →
    ∃ c ∈ cats, includeCatalog c = true ∧
      (e = Event.fetchSchemas c.name ∨ e = Event.writeSchemas ∨
        e = Event.sleepSecs 1) := by
  intro cats
  induction cats with
  | nil => intro store e he; simp [refreshSchemasLoop] at he
  | cons c rest ih =>
    intro store e he
    by_cases hinc : includeCatalog c = true
    · cases hr : env.schemasResult c.name with
      | error err =>
        simp only [refreshSchemasLoop, hinc, if_true, hr] at he
        rcases List.mem_singleton.mp he with rfl
        exact ⟨c, List.mem_cons_self c rest, hinc, Or.inl rfl⟩
      | ok resp =>
        rcases hw : write_schemasE env.schFail store resp with ⟨att, store1, res⟩
        cases res with
        | error pe =>
          simp only [refreshSchemasLoop, hinc, if_true, hr, hw] at he
          rcases List.mem_cons.mp he with rfl | he1
          · exact ⟨c, List.mem_cons_self c rest, hinc, Or.inl rfl⟩
          · rcases List.mem_singleton.mp he1 with rfl
            exact ⟨c, List.mem_cons_self c rest, hinc, Or.inr (Or.inl rfl)⟩
        | ok u =>
          simp only [refreshSchemasLoop, hinc, if_true, hr, hw] at he
          rcases List.mem_cons.mp he with rfl | he1
          · exact ⟨c, List.mem_cons_self c rest, hinc, Or.inl rfl⟩
          · rcases List.mem_cons.mp he1 with rfl | he2
            · exact ⟨c, List.mem_cons_self c rest, hinc, Or.inr (Or.inl rfl)⟩
            · rcases List.mem_cons.mp he2 with rfl | he3
              · exact ⟨c, List.mem_cons_self c rest, hinc,
                  Or.inr (Or.inr rfl)⟩
              · rcases ih store1 e he3 with ⟨c1, hc1, hinc1, hsh⟩
                exact ⟨c1, List.mem_cons_of_mem c hc1, hinc1, hsh⟩
    · have hinc' : includeCatalog c = false := by simpa using hinc
      simp only [refreshSchemasLoop, hinc', Bool.false_eq_true, if_false] at he
      rcases ih store e he with ⟨c1, hc1, hinc1, hsh⟩
      exact ⟨c1, List.mem_cons_of_mem c hc1, hinc1, hsh⟩

theorem tablesInner_events (env : Env) (cn : String) : ∀ (schs : List Schema)
    (store : Store) (e : Event),
    e ∈ (refreshTablesInner env store cn schs).1 →
    (∃ sn, e = Event.fetchTables cn sn) ∨ e = Event.writeTables := by
  intro schs
  induction schs with
  | nil => intro store e he; simp [refreshTablesInner] at he
  | cons sch rest ih =>
    intro store e he
    cases hr : env.tablesResult cn sch.name with
    | error err =>
      simp only [refreshTablesInner, hr] at he
      rcases List.mem_singleton.mp he with rfl
      exact Or.inl ⟨sch.name, rfl⟩
    | ok tresp =>
      cases ht : tresp.tables with
      | none =>
        simp only [refreshTablesInner, hr, ht] at he
        rcases List.mem_cons.mp he with rfl | he1
        · exact Or.inl ⟨sch.name, rfl⟩
        · exact ih store e he1
      | some tl =>
        rcases hw : write_tablesE env.tabFail store tresp with ⟨att, store1, res⟩
        cases res with
        | error pe =>
          simp only [refreshTablesInner, hr, ht, hw] at he
          rcases List.mem_cons.mp he with rfl | he1
          · exact Or.inl ⟨sch.name, rfl⟩
          · rcases List.mem_singleton.mp he1 with rfl
            exact Or.inr rfl
        | ok u =>
          simp only [refreshTablesInner, hr, ht, hw] at he
          rcases List.mem_cons.mp he with rfl | he1
          · exact Or.inl ⟨sch.name, rfl⟩
          · rcases List.mem_cons.mp he1 with rfl | he2
            · exact Or.inr rfl
            · exact ih store1 e he2

theorem tablesLoop_events (env : Env) : ∀ (cats : List Catalog)
    (store : Store) (e : Event),
    e ∈ (refreshTablesLoop env store cats).1 →
    ∃ c ∈ cats, includeCatalog c = true ∧
      (e = Event.fetchSchemas c.name ∨ (∃ sn, e = Event.fetchTables c.name sn)
        ∨ e = Event.writeTables) := by
  intro cats
  induction cats with
  | nil => intro store e he; simp [refreshTablesLoop] at he
  | cons c rest ih =>
    intro store e he
    by_cases hinc : includeCatalog c = true
    · cases hr : env.schemasResult c.name with
      | error err =>
        simp only [refreshTablesLoop, hinc, if_true, hr] at he
        rcases List.mem_singleton.mp he with rfl
        exact ⟨c, List.mem_cons_self c rest, hinc, Or.inl rfl⟩
      | ok resp =>
        cases hs : resp.schemas with
        | none =>
          simp only [refreshTablesLoop, hinc, if_true, hr, hs] at he
          rcases List.mem_cons.mp he with rfl | he1
          · exact ⟨c, List.mem_cons_self c rest, hinc, Or.inl rfl⟩
          · rcases ih store e he1 with ⟨c1, hc1, hinc1, hsh⟩
            exact ⟨c1, List.mem_cons_of_mem c hc1, hinc1, hsh⟩
        | some schs =>
          cases hres : (refreshTablesInner env store c.name schs).2.2 with
          | ok =>
            simp only [refreshTablesLoop, hinc, if_true, hr, hs, hres] at he
            rcases List.mem_cons.mp he with rfl | he1
            · exact ⟨c, List.mem_cons_self c rest, hinc, Or.inl rfl⟩
            · rcases List.mem_append.mp he1 with he2 | he2
              · rcases tablesInner_events env c.name schs store e he2 with
                  hsh | hsh
                · exact ⟨c, List.mem_cons_self c rest, hinc,
                    Or.inr (Or.inl hsh)⟩
                · exact ⟨c, List.mem_cons_self c rest, hinc,
                    Or.inr (Or.inr hsh)⟩
              · rcases ih _ e he2 with ⟨c1, hc1, hinc1, hsh⟩
                exact ⟨c1, List.mem_cons_of_mem c hc1, hinc1, hsh⟩
          | err eo =>
            simp only [refreshTablesLoop, hinc, if_true, hr, hs, hres] at he
            rcases List.mem_cons.mp he with rfl | he1
            · exact ⟨c, List.mem_cons_self c rest, hinc, Or.inl rfl⟩
            · rcases tablesInner_events env c.name schs store e he1 with
                hsh | hsh
              · exact ⟨c, List.mem_cons_self c rest, hinc,
                  Or.inr (Or.inl hsh)⟩
              · exact ⟨c, List.mem_cons_self c rest, hinc,
                  Or.inr (Or.inr hsh)⟩
          | panicked =>
            simp only [refreshTablesLoop, hinc, if_true, hr, hs, hres] at he
            rcases List.mem_cons.mp he with rfl | he1
            · exact ⟨c, List.mem_cons_self c rest, hinc, Or.inl rfl⟩
            · rcases tablesInner_events env c.name schs store e he1 with
                hsh | hsh
              · exact ⟨c, List.mem_cons_self c rest, hinc,
                  Or.inr (Or.inl hsh)⟩
              · exact ⟨c, List.mem_cons_self c rest, hinc,
                  Or.inr (Or.inr hsh)⟩
    · have hinc' : includeCatalog c = false := by simpa using hinc
      simp only [refreshTablesLoop, hinc', Bool.false_eq_true, if_false] at he
      rcases ih store e he with ⟨c1, hc1, hinc1, hsh⟩
      exact ⟨c1, List.mem_cons_of_mem c hc1, hinc1, hsh⟩

theorem write_schemasE_noFail_result (store : Store) (resp : SchemaResponse) :
    (write_schemasE (fun _ => false) store resp).2.2 = Except.ok () := by
  cases resp with
  | mk schemas =>
    cases schemas with
    | none => rfl
    | some l => simp [write_schemasE, writeLoopBy_noFail]

theorem schemasLoop_trace (env : Env) (schOf : String → SchemaResponse)
    (hs : env.schemasResult = fun n => Except.ok (schOf n))
    (hf : env.schFail = fun _ => false) :
    ∀ (cats : List Catalog) (store : Store),
    (refreshSchemasLoop env store cats).1
      = (cats.filter includeCatalog).flatMap
          (fun c => [Event.fetchSchemas c.name, Event.writeSchemas,
            Event.sleepSecs 1]) := by
  intro cats
  induction cats with
  | nil => intro store; simp [refreshSchemasLoop]
  | cons c rest ih =>
    intro store
    by_cases hinc : includeCatalog c = true
    · rcases hw : write_schemasE env.schFail store (schOf c.name) with
        ⟨att, store1, res⟩
      have hres : res = Except.ok () := by
        have h0 := write_schemasE_noFail_result store (schOf c.name)
        rw [← hf, hw] at h0
        exact h0
      subst hres
      simp only [refreshSchemasLoop, hinc, if_true, hs, hw]
      rw [ih store1]
      simp [List.filter_cons, hinc]
    · have hinc' : includeCatalog c = false := by simpa using hinc
      simp only [refreshSchemasLoop, hinc', Bool.false_eq_true, if_false]
      rw [ih store]
      simp [List.filter_cons, hinc']

/-- A plain included catalog fixture. -/
def sampleCatalog : Catalog :=
  { name := "main", owner := "ops", comment := none, storage_root := none,
    provider_name := none, share_name := none,
    enable_predictive_optimization := none, metastore_id := "m1",
    created_at := 0, created_by := "ops", updated_at := none,
    updated_by := none, catalog_type := "MANAGED_CATALOG",
    storage_location := none, isolation_mode := none,
    connection_name := none, full_name := "main", securable_kind := none,
    securable_type := none, browse_only := none }

/-- A catalog carrying the reserved legacy test name: excluded from
traversal by the three-part rule. -/
def adrianCatalog : Catalog :=
  { sampleCatalog with
    name := "adrian_hive_test"
    full_name := "adrian_hive_test" }

/-- A schema fixture belonging to `sampleCatalog`. -/
def sampleSchema : Schema :=
  { name := "s1", catalog_name := "main", owner := "ops", comment := none,
    storage_root := none, enable_predictive_optimization := none,
    metastore_id := "m1", full_name := "main.s1", storage_location := none,
    created_at := 0, created_by := "ops", updated_at := none,
    updated_by := none, catalog_type := none, browse_only := none,
    schema_id := "sid1" }

/-- The table record of the key-collision fixture with `owner = "alice"`. -/
def tableAlice : Table :=
  { name := "t1", catalog_name := "c1", schema_name := "s1",
    table_type := "MANAGED", data_source_format := none,
    storage_location := none, view_definition := none, sql_path := none,
    owner := "alice", comment := none, storage_credential_name := none,
    enable_predictive_optimization := none, metastore_id := none,
    full_name := "c1.s1.t1", data_access_configuration_id := none,
    created_at := 0, created_by := "ops", updated_at := none,
    updated_by := none, deleted_at := none, table_id := "tid1",
    access_point := none, pipeline_id := none, browse_only := none }

/-- The same natural key as `tableAlice` with `owner = "bob"`. -/
def tableBob : Table := { tableAlice with owner := "bob", table_id := "tid2" }

/-- Engine oracle rejecting exactly the rows owned by `"bob"`. -/
def failBob : Table → Bool := fun t => t.owner == "bob"

/-- A store whose catalogs table holds exactly `sampleCatalog`. -/
def storeMain : Store := { emptyStore with catalogs := [sampleCatalog] }

/-- Environment in which every fetch succeeds (the catalogs endpoint yields
`sampleCatalog`, every schemas/tables response is null) and the engine
accepts everything. -/
def envOk : Env :=
  { catTransport := Except.ok "body",
    catDecode := fun _ => Except.ok ⟨[sampleCatalog]⟩,
    schemasResult := fun _ => Except.ok ⟨none⟩,
    tablesResult := fun _ _ => Except.ok ⟨none⟩,
    catFail := fun _ => false,
    schFail := fun _ => false,
    tabFail := fun _ => false }

/-- Like `envOk`, but the catalogs endpoint yields only `adrianCatalog`. -/
def envAdrian : Env :=
  { envOk with catDecode := fun _ => Except.ok ⟨[adrianCatalog]⟩ }

/-- Like `envOk`, but the engine rejects every catalogs-table statement. -/
def envPersistFail : Env := { envOk with catFail := fun _ => true }

/-- Like `envOk`, but the transport fails on the catalogs endpoint. -/
def envFetchErr : Env := { envOk with catTransport := Except.error () }

/-- C5: whenever the catalogs fetch fails — the transport errors, or the
response body does not decode as a `CatalogResponse` — `refresh_catalogs`
returns that error and the store (in particular the catalogs table) is left
exactly unchanged, with no write statement issued. -/
theorem c5_fetch_failure_no_write :
    (∀ dec : String → Except Unit CatalogResponse,
      fetch_catalogs (Except.error ()) dec
        = Except.error ApiError.transportFailed)
    ∧ (∀ (body : String) (dec : String → Except Unit CatalogResponse),
      dec body = Except.error () →
      fetch_catalogs (Except.ok body) dec
        = Except.error ApiError.decodeFailed)
    ∧ (∀ (env : Env) (store : Store) (e : ApiError),
      catalogsFetchResult env = Except.error e →
      refresh_catalogs env store
        = ([Event.fetchCatalogs], store, RunResult.err e)) := by
  refine ⟨fun dec => rfl, ?_, ?_⟩
  · intro body dec h
    simp [fetch_catalogs, h]
  · intro env store e h
    simp [refresh_catalogs, h]

theorem c5_fetch_failure_no_write_witness :
    catalogsFetchResult envFetchErr = Except.error ApiError.transportFailed ∧
    refresh_catalogs envFetchErr emptyStore
      = ([Event.fetchCatalogs], emptyStore,
         RunResult.err ApiError.transportFailed) :=
  ⟨rfl, c5_fetch_failure_no_write.2.2 envFetchErr emptyStore
    ApiError.transportFailed rfl⟩

/-- C6: each writer is idempotent — writing the same collection twice
leaves the very same stored rows as writing it once — and each preserves
key-uniqueness of its table, so no duplicate rows arise under any natural
key. -/
theorem c6_writers_idempotent :
    (∀ (s : Store) (r : CatalogResponse),
      write_catalogs (write_catalogs s r) r = write_catalogs s r)
    ∧ (∀ (s : Store) (r : SchemaResponse),
      write_schemas (write_schemas s r) r = write_schemas s r)
    ∧ (∀ (s : Store) (r : TableResponse),
      write_tables (write_tables s r) r = write_tables s r)
    ∧ (∀ (s : Store) (r : CatalogResponse),
      (s.catalogs.map catalogKey).Nodup →
      ((write_catalogs s r).catalogs.map catalogKey).Nodup)
    ∧ (∀ (s : Store) (r : SchemaResponse),
      (s.schemas.map schemaKey).Nodup →
      ((write_schemas s r).schemas.map schemaKey).Nodup)
    ∧ (∀ (s : Store) (r : TableResponse),
      (s.tables.map tableKey).Nodup →
      ((write_tables s r).tables.map tableKey).Nodup) := by
  have hwc : ∀ (s : Store) (r : CatalogResponse),
      write_catalogs s r = { s with catalogs :=
        (writeRowsBy catalogKey s.catalogs
          (r.catalogs.filter catalogWriteIncluded)) } := by
    intro s r
    simp [write_catalogs, foldl_upsert_filter]
  refine ⟨?_, ?_, ?_, ?_, ?_, ?_⟩
  · intro s r
    simp [hwc, writeRowsBy_idem]
  · intro s r
    cases r with
    | mk schemas =>
      cases schemas with
      | none => rfl
      | some l => simp [write_schemas, writeRowsBy_idem]
  · intro s r
    cases r with
    | mk tables =>
      cases tables with
      | none => rfl
      | some l => simp [write_tables, writeRowsBy_idem]
  · intro s r h
    rw [hwc]
    exact writeRowsBy_keys_nodup catalogKey s.catalogs _ h
  · intro s r h
    cases r with
    | mk schemas =>
      cases schemas with
      | none => exact h
      | some l => exact writeRowsBy_keys_nodup schemaKey s.schemas l h
  · intro s r h
    cases r with
    | mk tables =>
      cases tables with
      | none => exact h
      | some l => exact writeRowsBy_keys_nodup tableKey s.tables l h

theorem c6_writers_idempotent_witness :
    (storeMain.catalogs.map catalogKey).Nodup ∧
    ((write_catalogs storeMain ⟨[sampleCatalog]⟩).catalogs.map
      catalogKey).Nodup :=
  ⟨by decide,
    c6_writers_idempotent.2.2.2.1 storeMain ⟨[sampleCatalog]⟩ (by decide)⟩

/-- C7: writing two table records with the same natural key in succession
leaves exactly one stored row under that key, every field of which is the
second record's — a full overwrite, not a field-by-field merge. -/
theorem c7_key_collision_overwrite (s : Store) (t1 t2 : Table)
    (_hk : tableKey t1 = tableKey t2) :
    ((write_tables (write_tables s ⟨some [t1]⟩) ⟨some [t2]⟩).tables).filter
        (fun r => decide (tableKey r = tableKey t2)) = [t2] := by
  have hleft : ∀ Y : List Table,
      (Y.filter (fun x => decide (tableKey x ≠ tableKey t2))).filter
        (fun r => decide (tableKey r = tableKey t2)) = [] := by
    intro Y
    rw [List.filter_filter, List.filter_eq_nil_iff]
    intro x _
    by_cases h : tableKey x = tableKey t2 <;> simp [h]
  show ((upsertBy tableKey (upsertBy tableKey s.tables t1) t2).filter
      (fun r => decide (tableKey r = tableKey t2))) = [t2]
  simp only [upsertBy, List.filter_append, hleft]
  simp

theorem c7_key_collision_overwrite_witness :
    tableKey tableAlice = tableKey tableBob ∧
    ((write_tables (write_tables emptyStore ⟨some [tableAlice]⟩)
        ⟨some [tableBob]⟩).tables).filter
      (fun r => decide (tableKey r = tableKey tableBob)) = [tableBob] :=
  ⟨by decide,
    c7_key_collision_overwrite emptyStore tableAlice tableBob (by decide)⟩

/-- C10: a null array field is treated as an empty collection —
`write_schemas` and `write_tables` succeed with zero statements and an
unchanged store, and `refresh_all_tables` moves past a catalog whose
schemas field is null without error and without any table fetch for it. -/
theorem c10_null_collections_no_statements :
    (∀ (fail : Schema → Bool) (store : Store),
      write_schemasE fail store ⟨none⟩ = ([], store, Except.ok ()))
    ∧ (∀ (fail : Table → Bool) (store : Store),
      write_tablesE fail store ⟨none⟩ = ([], store, Except.ok ()))
    ∧ (∀ (env : Env) (store : Store) (c : Catalog) (rest : List Catalog),
      includeCatalog c = true →
      env.schemasResult c.name = Except.ok ⟨none⟩ →
      refreshTablesLoop env store (c :: rest)
        = (Event.fetchSchemas c.name :: (refreshTablesLoop env store rest).1,
           (refreshTablesLoop env store rest).2.1,
           (refreshTablesLoop env store rest).2.2)) := by
  refine ⟨fun fail store => rfl, fun fail store => rfl, ?_⟩
  intro env store c rest hinc hr
  simp [refreshTablesLoop, hinc, hr]

theorem c10_null_collections_no_statements_witness :
    includeCatalog sampleCatalog = true ∧
    envOk.schemasResult sampleCatalog.name = Except.ok ⟨none⟩ ∧
    refreshTablesLoop envOk emptyStore [sampleCatalog]
      = (Event.fetchSchemas sampleCatalog.name ::
          (refreshTablesLoop envOk emptyStore []).1,
         (refreshTablesLoop envOk emptyStore []).2.1,
         (refreshTablesLoop envOk emptyStore []).2.2) :=
  ⟨by decide, rfl,
    c10_null_collections_no_statements.2.2 envOk emptyStore sampleCatalog []
      (by decide) rfl⟩

/-- C8: when the storage engine rejects the statement for record k of a
collection, each writer returns the engine's error having committed exactly
the statements before k (for `write_catalogs`, those of the records passing
its write-time filter) and attempts no statement for any later record — the
write is only partially applied, with no transaction or rollback. -/
theorem c8_partial_write_on_engine_error :
    (∀ (fail : Table → Bool) (store : Store) (l1 : List Table) (t : Table)
        (l2 : List Table),
      (∀ x ∈ l1, fail x = false) → fail t = true →
      write_tablesE fail store ⟨some (l1 ++ t :: l2)⟩
        = (l1 ++ [t],
           { store with tables := (writeRowsBy tableKey store.tables l1) },
           Except.error PersistErr.engineReject))
    ∧ (∀ (fail : Schema → Bool) (store : Store) (l1 : List Schema)
        (s : Schema) (l2 : List Schema),
      (∀ x ∈ l1, fail x = false) → fail s = true →
      write_schemasE fail store ⟨some (l1 ++ s :: l2)⟩
        = (l1 ++ [s],
           { store with schemas := (writeRowsBy schemaKey store.schemas l1) },
           Except.error PersistErr.engineReject))
    ∧ (∀ (fail : Catalog → Bool) (store : Store) (l1 : List Catalog)
        (c : Catalog) (l2 : List Catalog),
      (∀ x ∈ l1, catalogWriteIncluded x = true → fail x = false) →
      catalogWriteIncluded c = true → fail c = true →
      write_catalogsE fail store ⟨l1 ++ c :: l2⟩
        = (l1.filter catalogWriteIncluded ++ [c],
           { store with catalogs := (writeRowsBy catalogKey store.catalogs
              (l1.filter catalogWriteIncluded)) },
           Except.error PersistErr.engineReject)) := by
  refine ⟨?_, ?_, ?_⟩
  · intro fail store l1 t l2 h1 h2
    have hp := writeLoopBy_stops_at_failure tableKey (fun _ => true) fail t l2 l1
      store.tables (fun x hx _ => h1 x hx) rfl h2
    show ((writeLoopBy tableKey (fun _ => true) fail store.tables
        (l1 ++ t :: l2)).1,
      { store with tables := ((writeLoopBy tableKey (fun _ => true) fail
          store.tables (l1 ++ t :: l2)).2.1) },
      (writeLoopBy tableKey (fun _ => true) fail store.tables
        (l1 ++ t :: l2)).2.2) = _
    rw [hp]
    simp [writeRowsBy]
  · intro fail store l1 s l2 h1 h2
    have hp := writeLoopBy_stops_at_failure schemaKey (fun _ => true) fail s l2 l1
      store.schemas (fun x hx _ => h1 x hx) rfl h2
    show ((writeLoopBy schemaKey (fun _ => true) fail store.schemas
        (l1 ++ s :: l2)).1,
      { store with schemas := ((writeLoopBy schemaKey (fun _ => true) fail
          store.schemas (l1 ++ s :: l2)).2.1) },
      (writeLoopBy schemaKey (fun _ => true) fail store.schemas
        (l1 ++ s :: l2)).2.2) = _
    rw [hp]
    simp [writeRowsBy]
  · intro fail store l1 c l2 h1 hc h2
    have hp := writeLoopBy_stops_at_failure catalogKey catalogWriteIncluded fail c l2 l1
      store.catalogs h1 hc h2
    show ((writeLoopBy catalogKey catalogWriteIncluded fail store.catalogs
        (l1 ++ c :: l2)).1,
      { store with catalogs := ((writeLoopBy catalogKey catalogWriteIncluded
          fail store.catalogs (l1 ++ c :: l2)).2.1) },
      (writeLoopBy catalogKey catalogWriteIncluded fail store.catalogs
        (l1 ++ c :: l2)).2.2) = _
    rw [hp]
    simp [foldl_upsert_filter]

theorem c8_partial_write_on_engine_error_witness :
    (∀ x ∈ [tableAlice], failBob x = false) ∧ failBob tableBob = true ∧
    write_tablesE failBob emptyStore ⟨some ([tableAlice] ++ tableBob :: [])⟩
      = ([tableAlice] ++ [tableBob],
         { emptyStore with tables := (writeRowsBy tableKey emptyStore.tables
            [tableAlice]) },
         Except.error PersistErr.engineReject) :=
  ⟨by decide, by decide,
    c8_partial_write_on_engine_error.1 failBob emptyStore [tableAlice]
      tableBob [] (by decide) (by decide)⟩

/-- C9: on a run of `refresh_all_schemas` in which every fetch and write
succeeds, the trace is exactly one schema fetch, one persist, then a fixed
one-second suspension per included catalog before the next is processed;
`refresh_all_tables` never suspends at all — the pacing asymmetry holds. -/
theorem c9_pacing_asymmetry :
    (∀ (env : Env) (store : Store) (resp : CatalogResponse)
        (schOf : String → SchemaResponse),
      catalogsFetchResult env = Except.ok resp →
      env.schemasResult = (fun n => Except.ok (schOf n)) →
      env.schFail = (fun _ => false) →
      (refresh_all_schemas env store).1
        = Event.fetchCatalogs ::
            (resp.catalogs.filter includeCatalog).flatMap
              (fun c => [Event.fetchSchemas c.name, Event.writeSchemas,
                Event.sleepSecs 1]))
    ∧ (∀ (env : Env) (store : Store) (n : Nat),
      Event.sleepSecs n ∉ (refresh_all_tables env store).1) := by
  constructor
  · intro env store resp schOf hc hs hf
    simp only [refresh_all_schemas, hc]
    rw [schemasLoop_trace env schOf hs hf resp.catalogs store]
  · intro env store n hmem
    cases hc : catalogsFetchResult env with
    | error e =>
      simp only [refresh_all_tables, hc] at hmem
      simp at hmem
    | ok resp =>
      simp only [refresh_all_tables, hc] at hmem
      rcases List.mem_cons.mp hmem with h | h
      · simp at h
      · rcases tablesLoop_events env resp.catalogs store _ h with
          ⟨c, _, _, hsh | hsh | hsh⟩
        · simp at hsh
        · rcases hsh with ⟨sn, hsn⟩
          simp at hsn
        · simp at hsh

theorem c9_pacing_asymmetry_witness :
    catalogsFetchResult envOk = Except.ok ⟨[sampleCatalog]⟩ ∧
    envOk.schemasResult
      = (fun n => Except.ok ((fun _ => (⟨none⟩ : SchemaResponse)) n)) ∧
    envOk.schFail = (fun _ => false) ∧
    (refresh_all_schemas envOk emptyStore).1
      = Event.fetchCatalogs ::
          ((⟨[sampleCatalog]⟩ : CatalogResponse).catalogs.filter
              includeCatalog).flatMap
            (fun c => [Event.fetchSchemas c.name, Event.writeSchemas,
              Event.sleepSecs 1]) :=
  ⟨rfl, rfl, rfl,
    c9_pacing_asymmetry.1 envOk emptyStore ⟨[sampleCatalog]⟩
      (fun _ => ⟨none⟩) rfl rfl rfl⟩

/-- C4: a catalog excluded by the three-part policy gets no schema fetch
from `refresh_all_schemas` and no schema or table fetch from
`refresh_all_tables`; every table fetch that does occur names a catalog
that was fetched and found includable. -/
theorem c4_excluded_catalogs_never_fetched :
    (∀ (env : Env) (store : Store) (resp : CatalogResponse) (n : String),
      catalogsFetchResult env = Except.ok resp →
      (∀ c ∈ resp.catalogs, c.name = n → includeCatalog c = false) →
      Event.fetchSchemas n ∉ (refresh_all_schemas env store).1)
    ∧ (∀ (env : Env) (store : Store) (resp : CatalogResponse) (n : String),
      catalogsFetchResult env = Except.ok resp →
      (∀ c ∈ resp.catalogs, c.name = n → includeCatalog c = false) →
      Event.fetchSchemas n ∉ (refresh_all_tables env store).1
        ∧ ∀ sn, Event.fetchTables n sn ∉ (refresh_all_tables env store).1)
    ∧ (∀ (env : Env) (store : Store) (resp : CatalogResponse)
        (cn sn : String),
      catalogsFetchResult env = Except.ok resp →
      Event.fetchTables cn sn ∈ (refresh_all_tables env store).1 →
      ∃ c ∈ resp.catalogs, c.name = cn ∧ includeCatalog c = true) := by
  refine ⟨?_, ?_, ?_⟩
  · intro env store resp n hc hx hmem
    simp only [refresh_all_schemas, hc] at hmem
    rcases List.mem_cons.mp hmem with h | h
    · simp at h
    · rcases schemasLoop_events env resp.catalogs store _ h with
        ⟨c, hcin, hinc, hsh | hsh | hsh⟩
      · have hn : n = c.name := by simpa using hsh
        rw [hx c hcin hn.symm] at hinc
        simp at hinc
      · simp at hsh
      · simp at hsh
  · intro env store resp n hc hx
    constructor
    · intro hmem
      simp only [refresh_all_tables, hc] at hmem
      rcases List.mem_cons.mp hmem with h | h
      · simp at h
      · rcases tablesLoop_events env resp.catalogs store _ h with
          ⟨c, hcin, hinc, hsh | hsh | hsh⟩
        · have hn : n = c.name := by simpa using hsh
          rw [hx c hcin hn.symm] at hinc
          simp at hinc
        · rcases hsh with ⟨sn1, hsn⟩
          simp at hsn
        · simp at hsh
    · intro sn hmem
      simp only [refresh_all_tables, hc] at hmem
      rcases List.mem_cons.mp hmem with h | h
      · simp at h
      · rcases tablesLoop_events env resp.catalogs store _ h with
          ⟨c, hcin, hinc, hsh | hsh | hsh⟩
        · simp at hsh
        · rcases hsh with ⟨sn1, hsn⟩
          have hn : n = c.name ∧ sn = sn1 := by simpa using hsn
          rw [hx c hcin hn.1.symm] at hinc
          simp at hinc
        · simp at hsh
  · intro env store resp cn sn hc hmem
    simp only [refresh_all_tables, hc] at hmem
    rcases List.mem_cons.mp hmem with h | h
    · simp at h
    · rcases tablesLoop_events env resp.catalogs store _ h with
        ⟨c, hcin, hinc, hsh | hsh | hsh⟩
      · simp at hsh
      · rcases hsh with ⟨sn1, hsn⟩
        have hn : cn = c.name ∧ sn = sn1 := by simpa using hsn
        exact ⟨c, hcin, hn.1.symm, hinc⟩
      · simp at hsh

theorem c4_excluded_catalogs_never_fetched_witness :
    catalogsFetchResult envAdrian = Except.ok ⟨[adrianCatalog]⟩ ∧
    (∀ c ∈ (⟨[adrianCatalog]⟩ : CatalogResponse).catalogs,
      c.name = "adrian_hive_test" → includeCatalog c = false) ∧
    Event.fetchSchemas "adrian_hive_test"
      ∉ (refresh_all_schemas envAdrian emptyStore).1 :=
  ⟨rfl, by decide,
    c4_excluded_catalogs_never_fetched.1 envAdrian emptyStore
      ⟨[adrianCatalog]⟩ "adrian_hive_test" rfl (by decide)⟩

/-- C1 counterexample: `adrian_hive_test` is excluded by the traversal
policy, yet the catalog-sync phase writes its row into the catalogs table —
`write_catalogs` re-applies only two of the three exclusion conditions. -/
theorem c1_counterexample_adrian_row_written :
    includeCatalog adrianCatalog = false ∧
    (refresh_catalogs envAdrian emptyStore).2.1.catalogs
      = [adrianCatalog] := by
  constructor
  · decide
  · rfl

/-- C1 (amended): every catalogs-table row present after `write_catalogs`
either was already stored or comes from the written collection and passes
the write-time filter, which skips `DELTASHARING_CATALOG` rows and the
`__databricks_internal` catalog — but does not skip `adrian_hive_test`. -/
theorem c1_write_catalogs_row_provenance (store : Store)
    (resp : CatalogResponse) (r : Catalog)
    (hmem : r ∈ (write_catalogs store resp).catalogs) :
    r ∈ store.catalogs ∨ (r ∈ resp.catalogs
      ∧ r.catalog_type ≠ "DELTASHARING_CATALOG"
      ∧ r.name ≠ "__databricks_internal") := by
  have h1 : (write_catalogs store resp).catalogs
      = writeRowsBy catalogKey store.catalogs
          (resp.catalogs.filter catalogWriteIncluded) := by
    simp [write_catalogs, foldl_upsert_filter]
  rw [h1] at hmem
  rcases mem_writeRowsBy catalogKey _ _ hmem with h | h
  · exact Or.inl h
  · rcases List.mem_filter.mp h with ⟨hr, hp⟩
    have hp2 : r.catalog_type ≠ "DELTASHARING_CATALOG"
        ∧ r.name ≠ "__databricks_internal" := by
      simpa [catalogWriteIncluded] using hp
    exact Or.inr ⟨hr, hp2.1, hp2.2⟩

theorem c1_write_catalogs_row_provenance_witness :
    sampleCatalog ∈ (write_catalogs emptyStore ⟨[sampleCatalog]⟩).catalogs ∧
    (sampleCatalog ∈ emptyStore.catalogs ∨
      (sampleCatalog ∈ (⟨[sampleCatalog]⟩ : CatalogResponse).catalogs
        ∧ sampleCatalog.catalog_type ≠ "DELTASHARING_CATALOG"
        ∧ sampleCatalog.name ≠ "__databricks_internal")) :=
  ⟨by decide,
    c1_write_catalogs_row_provenance emptyStore ⟨[sampleCatalog]⟩
      sampleCatalog (by decide)⟩

/-- C2 counterexample: a persistence error inside the catalog-sync phase is
not returned as the phase's error — the phase panics (the `.unwrap()` on
the writer), and the driver never reaches the remaining phases, so only one
catalogs fetch is ever issued. -/
theorem c2_counterexample_persistence_panic :
    (refresh_catalogs envPersistFail emptyStore).2.2 = RunResult.panicked ∧
    (runAll envPersistFail emptyStore).1.count Event.fetchCatalogs = 1 := by
  constructor
  · rfl
  · rfl

/-- C2 (amended): a fetch error (transport or decode) is propagated
unchanged as the phase's error result with the store untouched, and the
driver still invokes the remaining phases (three catalogs fetches occur);
a persistence error instead panics the phase, and a panicked first phase
stops the whole run with only its own events. -/
theorem c2_error_propagation :
    (∀ (env : Env) (store : Store) (e : ApiError),
      catalogsFetchResult env = Except.error e →
      refresh_catalogs env store
          = ([Event.fetchCatalogs], store, RunResult.err e)
        ∧ (runAll env store).1.count Event.fetchCatalogs = 3)
    ∧ (∀ (env : Env) (store : Store),
      (refresh_catalogs env store).2.2 = RunResult.panicked →
      (runAll env store).1 = (refresh_catalogs env store).1) := by
  constructor
  · intro env store e h
    have h1 : refresh_catalogs env store
        = ([Event.fetchCatalogs], store, RunResult.err e) := by
      simp [refresh_catalogs, h]
    have h2 : refresh_all_schemas env store
        = ([Event.fetchCatalogs], store, RunResult.err e) := by
      simp [refresh_all_schemas, h]
    have h3 : refresh_all_tables env store
        = ([Event.fetchCatalogs], store, RunResult.err e) := by
      simp [refresh_all_tables, h]
    refine ⟨h1, ?_⟩
    simp [runAll, h1, h2, h3, List.count_cons]
  · intro env store hp
    simp [runAll, hp]

theorem c2_error_propagation_witness :
    catalogsFetchResult envFetchErr
        = Except.error ApiError.transportFailed ∧
    (refresh_catalogs envFetchErr emptyStore
        = ([Event.fetchCatalogs], emptyStore,
           RunResult.err ApiError.transportFailed)
      ∧ (runAll envFetchErr emptyStore).1.count Event.fetchCatalogs = 3) :=
  ⟨rfl, c2_error_propagation.1 envFetchErr emptyStore
    ApiError.transportFailed rfl⟩

/-- C3: at the failing input — a catalogs table holding one catalog and the
search term `"a"` — `search_catalogs` does not return the stored names
filtered by substring: the statement it builds,
`select name from catalogs where like %a%`, is rejected by the engine as a
parse error (the store is still untouched); and even with no term the call
fails, because the name-only projection cannot decode into a full
`Catalog` row. -/
theorem c3_search_catalogs_failing_input :
    (search_catalogs storeMain (some "a")).2
        = Except.error SqlError.parseError ∧
    (search_catalogs storeMain (some "a")).1 = storeMain ∧
    (search_catalogs storeMain none).2
        = Except.error SqlError.columnMissing := by
  refine ⟨rfl, rfl, rfl⟩
